import Mathlib

/-!
Verification of `FinZeroCurve` (src/financepy/market/curves/FinZeroCurve.py).

The source file builds a zero-rate curve from (time-or-date, rate) pairs and
exposes discount-factor, zero-rate, survival-probability, forward-rate and
bump queries.  Floating point numbers are idealised as real numbers.  External
collaborators (day count, frequency lookup, interpolation engine, the date
class, the helper functions inputTime and inputFrequency, the discount-curve
class used by bump, and the monotonicity test) are not part of the source
file; each is modelled from the specification, as marked in its doc comment.

A Python statement that raises an exception is modelled by an `Except` or
`Option` error value; real-number division by zero (which Python raises on
and Lean totalises as 0) is modelled as an explicit error wherever a
verified property depends on it.
-/

/-! ## Dates -/

/-- Modelled from the spec: the external date/calendar collaborator
"supports subtraction yielding a day count, and ordering comparisons".
A date is represented by its day number. -/
structure FinDate where
  days : ℤ
deriving DecidableEq

instance : LT FinDate := ⟨fun a b => a.days < b.days⟩

instance : DecidableRel (fun (a b : FinDate) => a < b) :=
  fun a b => inferInstanceAs (Decidable (a.days < b.days))

/-- Modelled from the spec: the global day-count denominator `daysPerYear`
used for calendar year-offsets (`gDaysInYear` in the external globals). -/
noncomputable def gDaysInYear : ℝ := 365

/-! ## Frequencies, day counts, interpolation methods -/

/-- Modelled from the spec: the closed compounding-frequency enumeration
"(annual, semi-annual, ..., continuous)". -/
inductive FinFrequencyTypes
  | ANNUAL
  | SEMI_ANNUAL
  | QUARTERLY
  | MONTHLY
  | CONTINUOUS
deriving DecidableEq

/-- Modelled from the spec: the frequency collaborator
`periodsPerYear(frequencyEnum) -> float | continuousSentinel`; the
sentinel for continuous compounding is `-1`. -/
def FinFrequency : FinFrequencyTypes → ℤ
  | .ANNUAL => 1
  | .SEMI_ANNUAL => 2
  | .QUARTERLY => 4
  | .MONTHLY => 12
  | .CONTINUOUS => -1

/-- Modelled from the spec: the closed day-count-convention enumeration
(ACT/ACT-ISDA and variants).  Only membership matters here; the year-fraction
arithmetic itself stays an abstract collaborator parameter. -/
inductive FinDayCountTypes
  | ACT_ACT_ISDA
  | ACT_360
  | ACT_365
  | THIRTY_360
deriving DecidableEq

/-- Modelled from the spec: the open enumeration of interpolation methods;
each carries the numeric id handed to the interpolation engine. -/
inductive FinInterpMethods
  | LINEAR_ZERO_RATES
  | FLAT_FORWARDS
  | LINEAR_FWD_RATES
deriving DecidableEq

/-- The numeric method id (`interpMethod.value` in the source). -/
def FinInterpMethods.value : FinInterpMethods → ℕ
  | .LINEAR_ZERO_RATES => 1
  | .FLAT_FORWARDS => 2
  | .LINEAR_FWD_RATES => 3

/-! ## Quote elements -/

/-- An element of the `timesOrDates` input list.  Python lists are
heterogeneous: an element can be a float, a `FinDate`, or any other object;
`intVal` stands for a Python `int`, which is not an instance of `float`. -/
inductive TimeOrDate
  | time (t : ℝ)
  | date (d : FinDate)
  | intVal (n : ℤ)

/-- The numeric value Python arithmetic and comparisons see for an element:
floats and ints are numbers, a `FinDate` is not (comparing or subtracting it
against a float raises). -/
noncomputable def TimeOrDate.numValue? : TimeOrDate → Option ℝ
  | .time t => some t
  | .intVal n => some (n : ℝ)
  | .date _ => none

/-! ## Construction errors -/

/-- The distinct construction-time failures of `FinZeroCurve.__init__`.
The first seven correspond to the explicit `raise FinError` sites
(lines 41-104 of the source).  `typeMismatch` is the implicit failure the
spec anticipates in its data-model section: "mixing modes within one call is
not supported and must be rejected only implicitly if it causes a later type
mismatch" — concretely, comparing a `FinDate` element against `0.0` in
float mode, or subtracting the anchor date from a float/int element in date
mode, raises an exception that is not one of the seven named errors. -/
inductive BuildError
  | emptyInput
  | lengthMismatch
  | unknownFrequency
  | unknownDayCount
  | negativeTime
  | unsupportedInputType
  | notMonotonic
  | typeMismatch
deriving DecidableEq

/-! ## The curve record -/

/-- The state stored by `FinZeroCurve.__init__` (lines 106-111):
`_curveDate`, `_times`, `_values`, `_dayCountType`, `_frequencyType`,
`_interpMethod`. -/
structure FinZeroCurve where
  curveDate : FinDate
  times : List ℝ
  values : List ℝ
  dayCountType : FinDayCountTypes
  frequencyType : FinFrequencyTypes
  interpMethod : FinInterpMethods

/-- Modelled from the spec: `testMonotonicity` from the external math
utilities — the "NotMonotonic" failure fires when the "resolved time
sequence is not non-decreasing". -/
def testMonotonicity (x : List ℝ) : Prop := x.Chain' (· ≤ ·)

noncomputable instance : DecidablePred testMonotonicity := fun x =>
  inferInstanceAs (Decidable (x.Chain' (· ≤ ·)))

/-! ## The constructor (lines 30-111) -/

/-- Lines 69-72 of the source: the float-mode discount factor for one pair —
`np.exp(-r*t)` under the continuous sentinel, else
`1.0 / np.power(1.0 + r/freq, freq * t)`. -/
noncomputable def floatDf (freq : ℤ) (r t : ℝ) : ℝ :=
  if freq = -1 then Real.exp (-r * t)
  else 1 / (1 + r / (freq : ℝ)) ^ ((freq : ℝ) * t)

/-- Lines 91-94 of the source: the date-mode discount factor — the same
formula except that the power uses the day-count year-fraction `alpha`
while the continuous formula still uses the calendar offset `t`. -/
noncomputable def dateDf (freq : ℤ) (r t alpha : ℝ) : ℝ :=
  if freq = -1 then Real.exp (-r * t)
  else 1 / (1 + r / (freq : ℝ)) ^ ((freq : ℝ) * alpha)

/-- Line 84 of the source: the calendar year-offset
`(date - curveDate) / gDaysInYear`. -/
noncomputable def dateOffset (curveDate d : FinDate) : ℝ :=
  ((d.days - curveDate.days : ℤ) : ℝ) / gDaysInYear

/-- The float-offset-mode loop of `__init__` (lines 59-75): for each pair,
reject a negative time, then store the time as given and the discount
factor `floatDf`.  An element with no numeric value (a `FinDate` in a
float-mode list) makes the comparison `t < 0.0` raise, modelled as
`typeMismatch`. -/
noncomputable def floatModeLoop (freq : ℤ) :
    List (TimeOrDate × ℝ) → Except BuildError (List ℝ × List ℝ)
  | [] => .ok ([], [])
  | (tod, r) :: rest =>
    match tod.numValue? with
    | none => .error .typeMismatch
    | some t =>
      if t < 0 then .error .negativeTime
      else
        match floatModeLoop freq rest with
        | .error e => .error e
        | .ok (ts, vs) => .ok (t :: ts, floatDf freq r t :: vs)

/-- The date-mode loop of `__init__` (lines 77-97): for each pair, the
stored time is the calendar offset `dateOffset` (rejected when negative),
while the compounding exponent uses `alpha = dc.yearFrac(curveDate, date)`;
the discount factor is `dateDf`.  A non-date element makes
`timesOrDates[i] - curveDate` raise, modelled as `typeMismatch`. -/
noncomputable def dateModeLoop (curveDate : FinDate) (freq : ℤ)
    (yearFrac : FinDate → FinDate → ℝ) :
    List (TimeOrDate × ℝ) → Except BuildError (List ℝ × List ℝ)
  | [] => .ok ([], [])
  | (tod, r) :: rest =>
    match tod with
    | .date d =>
      if dateOffset curveDate d < 0 then .error .negativeTime
      else
        match dateModeLoop curveDate freq yearFrac rest with
        | .error e => .error e
        | .ok (ts, vs) =>
          .ok (dateOffset curveDate d :: ts,
               dateDf freq r (dateOffset curveDate d) (yearFrac curveDate d) :: vs)
    | _ => .error .typeMismatch

/-- The tail of `__init__` (lines 101-111): check monotonicity of the
resolved times, then freeze the fields. -/
noncomputable def finishCurve (curveDate : FinDate) (dayCountType : FinDayCountTypes)
    (frequencyType : FinFrequencyTypes) (interpMethod : FinInterpMethods)
    (tv : List ℝ × List ℝ) : Except BuildError FinZeroCurve :=
  if testMonotonicity tv.1 then
    .ok { curveDate := curveDate, times := tv.1, values := tv.2,
          dayCountType := dayCountType, frequencyType := frequencyType,
          interpMethod := interpMethod }
  else .error .notMonotonic

/-- Embedding of `FinZeroCurve.__init__` (lines 30-111).  The enum-membership
checks (`frequencyType not in FinFrequencyTypes`, likewise for the day
count) are rendered by taking each selector as an `Option`: `some e` is a
member of the enumeration, `none` any non-member object.  `yearFrac` is the
external day-count collaborator, indexed by the convention. -/
noncomputable def finZeroCurveInit (curveDate : FinDate)
    (timesOrDates : List TimeOrDate) (zeroRates : List ℝ)
    (frequencySel : Option FinFrequencyTypes)
    (dayCountSel : Option FinDayCountTypes)
    (interpMethod : FinInterpMethods)
    (yearFrac : FinDayCountTypes → FinDate → FinDate → ℝ) :
    Except BuildError FinZeroCurve :=
  if timesOrDates.length = 0 then .error .emptyInput
  else if timesOrDates.length ≠ zeroRates.length then .error .lengthMismatch
  else
    match frequencySel with
    | none => .error .unknownFrequency
    | some frequencyType =>
      match dayCountSel with
      | none => .error .unknownDayCount
      | some dayCountType =>
        match timesOrDates.head? with
        | none => .error .emptyInput
        | some (.time _) =>
          match floatModeLoop (FinFrequency frequencyType)
              (timesOrDates.zip zeroRates) with
          | .error e => .error e
          | .ok tv => finishCurve curveDate dayCountType frequencyType interpMethod tv
        | some (.date _) =>
          match dateModeLoop curveDate (FinFrequency frequencyType)
              (yearFrac dayCountType) (timesOrDates.zip zeroRates) with
          | .error e => .error e
          | .ok tv => finishCurve curveDate dayCountType frequencyType interpMethod tv
        | some (.intVal _) => .error .unsupportedInputType

/-! ## The query surface (lines 115-190) -/

/-- Type of the external interpolation engine:
`interpolate(t, times, dfs, method)` (spec: "given an ordered time grid, an
array of discount-factor values, a method selector, and a query time,
returns an interpolated discount-factor value"). -/
abbrev Interp := ℝ → List ℝ → List ℝ → ℕ → ℝ

/-- A query argument `dt`: a date or a numeric year-offset. -/
inductive QueryInput
  | time (t : ℝ)
  | date (d : FinDate)

/-- Modelled from the spec: the shared time-resolution helper `inputTime` —
"resolve an input (date or numeric offset) to a year-offset t relative to
curveDate". -/
noncomputable def inputTime (dt : QueryInput) (c : FinZeroCurve) : ℝ :=
  match dt with
  | .time t => t
  | .date d => ((d.days - c.curveDate.days : ℤ) : ℝ) / gDaysInYear

/-- Modelled from the spec: `inputFrequency` resolves the caller-supplied
compounding frequency to periods-per-year, with `-1` the continuous
sentinel and `0` simple interest; a recognised numeric code passes through
unchanged. -/
def inputFrequency (f : ℤ) : ℤ := f

/-- Embedding of `FinZeroCurve.df` (lines 132-135). -/
noncomputable def FinZeroCurve.df (interp : Interp) (c : FinZeroCurve)
    (dt : QueryInput) : ℝ :=
  let t := inputTime dt c
  interp t c.times c.values c.interpMethod.value

/-- Embedding of `FinZeroCurve.survProb` (lines 139-142), written out from
its own source body. -/
noncomputable def FinZeroCurve.survProb (interp : Interp) (c : FinZeroCurve)
    (dt : QueryInput) : ℝ :=
  let t := inputTime dt c
  interp t c.times c.values c.interpMethod.value

/-- Embedding of `FinZeroCurve.zeroRate` (lines 116-128).  The source body is

    if f == 0:  # Simple interest
        zeroRate = (1.0/df-1.0)/t
    if f == -1:  # Continuous
        zeroRate = -np.log(df) / t
    else:
        zeroRate = (df**(-1.0/t/f) - 1) * f

The second `if` is not an `elif` of the first, so when `f == 0` the `else`
branch runs after the simple-interest assignment and evaluates the exponent
`-1.0/t/f`, a plain-float division by `f = 0` that raises
`ZeroDivisionError` (the simple-interest assignment itself also divides by
zero whenever `df` or `t` is `0`, so every `f == 0` call dies in an
exception).  A raised exception is modelled as `none`.  When `f` is neither
`0` nor `-1` and `t = 0`, the sub-term `-1.0/t` likewise raises. -/
noncomputable def FinZeroCurve.zeroRate (interp : Interp) (c : FinZeroCurve)
    (dt : QueryInput) (compoundingFreq : ℤ) : Option ℝ :=
  let t := inputTime dt c
  let f := inputFrequency compoundingFreq
  let df := c.df interp (QueryInput.time t)
  if f = 0 then none
  else if f = -1 then some (-Real.log df / t)
  else if t = 0 then none
  else some ((df ^ (-1 / t / (f : ℝ)) - 1) * (f : ℝ))

/-- Modelled from the spec: the external `FinDiscountCurve` class that
`bump` instantiates — a plain discount curve holding exactly the four
constructor arguments passed at line 168: anchor date, time grid, discount
factors, interpolation method (no day-count or frequency convention). -/
structure FinDiscountCurve where
  curveDate : FinDate
  times : List ℝ
  values : List ℝ
  interpMethod : FinInterpMethods

/-- Python is dynamically typed, so a method can return an instance of any
class; this sum records the class of a returned curve object. -/
inductive CurveObject
  | zeroCurve (c : FinZeroCurve)
  | discountCurve (c : FinDiscountCurve)

/-- Whether a returned curve object is an instance of `FinZeroCurve`. -/
def CurveObject.isZeroCurve : CurveObject → Bool
  | .zeroCurve _ => true
  | .discountCurve _ => false

/-- Embedding of `FinZeroCurve.bump` (lines 157-171): copy the two arrays,
rescale the copied values by `exp(-bumpSize * t)` index by index, and build
a `FinDiscountCurve` from the anchor date, the copied times, the rescaled
values and the interpolation method. -/
noncomputable def FinZeroCurve.bump (c : FinZeroCurve) (bumpSize : ℝ) :
    CurveObject :=
  let times := c.times
  let values :=
    List.zipWith (fun t v => v * Real.exp (-bumpSize * t)) times c.values
  CurveObject.discountCurve
    { curveDate := c.curveDate, times := times, values := values,
      interpMethod := c.interpMethod }

/-- The two `raise ValueError` sites of `fwdRate` (lines 179-183). -/
inductive DateOrderError
  | date1BeforeCurveDate
  | date2BeforeDate1
deriving DecidableEq

/-- Embedding of `FinZeroCurve.fwdRate` (lines 175-190): order checks, then
`(df1/df2 - 1.0) / yearFrac` under the caller-chosen day-count convention.
`yearFrac` is the external day-count collaborator, indexed by convention. -/
noncomputable def FinZeroCurve.fwdRate (interp : Interp)
    (yearFrac : FinDayCountTypes → FinDate → FinDate → ℝ)
    (c : FinZeroCurve) (date1 date2 : FinDate)
    (dayCountType : FinDayCountTypes) : Except DateOrderError ℝ :=
  if date1 < c.curveDate then .error .date1BeforeCurveDate
  else if date2 < date1 then .error .date2BeforeDate1
  else
    let yf := yearFrac dayCountType date1 date2
    let df1 := c.df interp (QueryInput.date date1)
    let df2 := c.df interp (QueryInput.date date2)
    .ok ((df1 / df2 - 1) / yf)

/-! ## A heap-level rendering of `bump` for the frame property

Python arrays are references into mutable storage; `values[i] = ...` writes
through the reference.  To state that `bump` neither mutates the source
arrays nor aliases them into the new curve, we render the method once more
against an explicit array store. -/

/-- A store of numpy arrays; a Python variable holds an index into it. -/
structure ArrayStore where
  arrays : List (List ℝ)

/-- Dereference an array (out-of-range reads give the empty array; all
references used below are in range). -/
def ArrayStore.get (s : ArrayStore) (r : ℕ) : List ℝ :=
  s.arrays.getD r []

/-- Allocate a fresh array (what `.copy()` does), returning the new store
and the fresh reference. -/
def ArrayStore.alloc (s : ArrayStore) (xs : List ℝ) : ArrayStore × ℕ :=
  ({ arrays := s.arrays ++ [xs] }, s.arrays.length)

/-- Overwrite the array behind a reference (what the in-place loop
`values[i] = ...` amounts to, taken over all indices). -/
def ArrayStore.write (s : ArrayStore) (r : ℕ) (xs : List ℝ) : ArrayStore :=
  { arrays := s.arrays.set r xs }

/-- `FinZeroCurve` at heap level: the array-valued attributes hold
references into the store. -/
structure FinZeroCurveObj where
  curveDate : FinDate
  timesRef : ℕ
  valuesRef : ℕ
  dayCountType : FinDayCountTypes
  frequencyType : FinFrequencyTypes
  interpMethod : FinInterpMethods

/-- Modelled from the spec: `FinDiscountCurve` at heap level. -/
structure FinDiscountCurveObj where
  curveDate : FinDate
  timesRef : ℕ
  valuesRef : ℕ
  interpMethod : FinInterpMethods

/-- Heap-level embedding of `bump` (lines 157-171):
`times = self._times.copy()` and `values = self._values.copy()` allocate
fresh arrays; the loop then writes the rescaled entries through the
`values` reference (the fresh copy); the returned `FinDiscountCurve` holds
the two fresh references.  `self` is only read. -/
noncomputable def bumpObj (s : ArrayStore) (c : FinZeroCurveObj)
    (bumpSize : ℝ) : ArrayStore × FinDiscountCurveObj :=
  let a1 := s.alloc (s.get c.timesRef)
  let s1 := a1.1
  let timesR := a1.2
  let a2 := s1.alloc (s1.get c.valuesRef)
  let s2 := a2.1
  let valuesR := a2.2
  let times := s2.get timesR
  let vals := s2.get valuesR
  let s3 := s2.write valuesR
    (List.zipWith (fun t v => v * Real.exp (-bumpSize * t)) times vals)
  (s3, { curveDate := c.curveDate, timesRef := timesR, valuesRef := valuesR,
         interpMethod := c.interpMethod })

/-! ## Spec-side definitions for the error taxonomy

These follow the words of the specification (not the source), to be
compared with the behaviour of `finZeroCurveInit`. -/

/-- The default-valued numeric view of an element (0 for a date; only ever
used where the element is known numeric). -/
noncomputable def TimeOrDate.numValueD (tod : TimeOrDate) : ℝ :=
  tod.numValue?.getD 0

/-- Spec-side: the year-offset a quote element "resolves" to — a float
offset stands as is, an int is its numeric value, a date resolves to the
calendar year-offset. -/
noncomputable def resolvedTime (curveDate : FinDate) : TimeOrDate → ℝ
  | .time t => t
  | .intVal n => (n : ℝ)
  | .date d => dateOffset curveDate d

/-- Spec-side: the resolved time sequence of a quote list. -/
noncomputable def resolvedTimes (curveDate : FinDate) (tods : List TimeOrDate) :
    List ℝ :=
  tods.map (resolvedTime curveDate)

/-- Spec-side: whether a quote element is a `FinDate`. -/
def TimeOrDate.isDateElem : TimeOrDate → Prop
  | .date _ => True
  | _ => False

/-- Spec-side: whether a quote element is numeric (float or int). -/
def TimeOrDate.isNumericElem : TimeOrDate → Prop
  | .date _ => False
  | _ => True

/-- Spec-side: the disjunction of the seven named construction failure
conditions of the error-handling taxonomy: EmptyInput, LengthMismatch,
UnknownFrequency, UnknownDayCount, NegativeTime, UnsupportedInputType,
NotMonotonic. -/
def sevenConditions (curveDate : FinDate) (tods : List TimeOrDate)
    (rates : List ℝ) (freqSel : Option FinFrequencyTypes)
    (dcSel : Option FinDayCountTypes) : Prop :=
  tods.length = 0 ∨
  tods.length ≠ rates.length ∨
  freqSel = none ∨
  dcSel = none ∨
  (∃ t ∈ resolvedTimes curveDate tods, t < 0) ∨
  (match tods.head? with
   | some (.intVal _) => True
   | _ => False) ∨
  ¬ testMonotonicity (resolvedTimes curveDate tods)

/-- Spec-side: a mixed-mode quote list — an element after the first does
not fit the input mode selected by the first element (a date among float
offsets, or a float/int among dates). -/
def mixedModeInput : List TimeOrDate → Prop
  | [] => False
  | tod0 :: rest =>
    match tod0 with
    | .time _ => ∃ e ∈ tod0 :: rest, e.isDateElem
    | .date _ => ∃ e ∈ tod0 :: rest, e.isNumericElem
    | .intVal _ => False

/-- Spec-side (for the dispatch claim): replace an int element by the float
of the same numeric value, leaving floats and dates alone. -/
def TimeOrDate.asFloatQuote : TimeOrDate → TimeOrDate
  | .intVal n => .time (n : ℝ)
  | e => e

/-! ## Loop characterisation lemmas -/

/-- The date carried by an element (an arbitrary default for non-dates;
only ever used where the element is known to be a date). -/
def TimeOrDate.dateD : TimeOrDate → FinDate
  | .date d => d
  | _ => { days := 0 }

lemma floatModeLoop_ok_of (freq : ℤ) (pairs : List (TimeOrDate × ℝ))
    (h : ∀ p ∈ pairs, ∃ v, p.1.numValue? = some v ∧ 0 ≤ v) :
    floatModeLoop freq pairs =
      .ok (pairs.map (fun p => p.1.numValueD),
           pairs.map (fun p => floatDf freq p.2 p.1.numValueD)) := by
  induction pairs with
  | nil => rfl
  | cons p rest ih =>
    obtain ⟨tod, r⟩ := p
    obtain ⟨v, hv, hv0⟩ := h (tod, r) (List.mem_cons_self _ _)
    have hrest := ih (fun q hq => h q (List.mem_cons_of_mem _ hq))
    simp only [floatModeLoop, hv, hrest, TimeOrDate.numValueD, List.map_cons]
    rw [if_neg (not_lt.2 hv0)]
    simp [TimeOrDate.numValueD, hv]

lemma floatModeLoop_ok_inv (freq : ℤ) (pairs : List (TimeOrDate × ℝ))
    (ts vs : List ℝ) (h : floatModeLoop freq pairs = .ok (ts, vs)) :
    (∀ p ∈ pairs, ∃ v, p.1.numValue? = some v ∧ 0 ≤ v) ∧
    ts = pairs.map (fun p => p.1.numValueD) ∧
    vs = pairs.map (fun p => floatDf freq p.2 p.1.numValueD) := by
  induction pairs generalizing ts vs with
  | nil =>
    simp only [floatModeLoop, Except.ok.injEq, Prod.mk.injEq] at h
    obtain ⟨h1, h2⟩ := h
    subst h1; subst h2
    simp
  | cons p rest ih =>
    obtain ⟨tod, r⟩ := p
    cases htod : tod.numValue? with
    | none =>
      simp only [floatModeLoop, htod] at h
      exact Except.noConfusion h
    | some v =>
      simp only [floatModeLoop, htod] at h
      by_cases hv : v < 0
      · rw [if_pos hv] at h; exact Except.noConfusion h
      · rw [if_neg hv] at h
        cases hloop : floatModeLoop freq rest with
        | error e => rw [hloop] at h; exact Except.noConfusion h
        | ok tv =>
          obtain ⟨ts', vs'⟩ := tv
          rw [hloop] at h
          obtain ⟨hts, hvs⟩ := Prod.mk.injEq .. ▸ Except.ok.inj h
          obtain ⟨hall, hts', hvs'⟩ := ih ts' vs' hloop
          refine ⟨?_, ?_, ?_⟩
          · intro q hq
            rcases List.mem_cons.1 hq with hq | hq
            · subst hq; exact ⟨v, htod, not_lt.1 hv⟩
            · exact hall q hq
          · rw [← hts, hts']
            simp [TimeOrDate.numValueD, htod]
          · rw [← hvs, hvs']
            simp [TimeOrDate.numValueD, htod]

lemma dateModeLoop_ok_of (curveDate : FinDate) (freq : ℤ)
    (yearFrac : FinDate → FinDate → ℝ) (pairs : List (TimeOrDate × ℝ))
    (h : ∀ p ∈ pairs, ∃ d, p.1 = .date d ∧ 0 ≤ dateOffset curveDate d) :
    dateModeLoop curveDate freq yearFrac pairs =
      .ok (pairs.map (fun p => resolvedTime curveDate p.1),
           pairs.map (fun p =>
             dateDf freq p.2 (resolvedTime curveDate p.1)
               (yearFrac curveDate p.1.dateD))) := by
  induction pairs with
  | nil => rfl
  | cons p rest ih =>
    obtain ⟨tod, r⟩ := p
    obtain ⟨d, hd, hd0⟩ := h (tod, r) (List.mem_cons_self _ _)
    cases hd
    have hrest := ih (fun q hq => h q (List.mem_cons_of_mem _ hq))
    simp only [dateModeLoop, hrest, List.map_cons]
    rw [if_neg (not_lt.2 hd0)]
    simp [resolvedTime, TimeOrDate.dateD]

lemma dateModeLoop_ok_inv (curveDate : FinDate) (freq : ℤ)
    (yearFrac : FinDate → FinDate → ℝ) (pairs : List (TimeOrDate × ℝ))
    (ts vs : List ℝ)
    (h : dateModeLoop curveDate freq yearFrac pairs = .ok (ts, vs)) :
    (∀ p ∈ pairs, ∃ d, p.1 = .date d ∧ 0 ≤ dateOffset curveDate d) ∧
    ts = pairs.map (fun p => resolvedTime curveDate p.1) ∧
    vs = pairs.map (fun p =>
      dateDf freq p.2 (resolvedTime curveDate p.1)
        (yearFrac curveDate p.1.dateD)) := by
  induction pairs generalizing ts vs with
  | nil =>
    simp only [dateModeLoop, Except.ok.injEq, Prod.mk.injEq] at h
    obtain ⟨h1, h2⟩ := h
    subst h1; subst h2
    simp
  | cons p rest ih =>
    obtain ⟨tod, r⟩ := p
    cases tod with
    | time t =>
      simp only [dateModeLoop] at h
      exact Except.noConfusion h
    | intVal n =>
      simp only [dateModeLoop] at h
      exact Except.noConfusion h
    | date d =>
      simp only [dateModeLoop] at h
      by_cases hd : dateOffset curveDate d < 0
      · rw [if_pos hd] at h; exact Except.noConfusion h
      · rw [if_neg hd] at h
        cases hloop : dateModeLoop curveDate freq yearFrac rest with
        | error e => rw [hloop] at h; exact Except.noConfusion h
        | ok tv =>
          obtain ⟨ts', vs'⟩ := tv
          rw [hloop] at h
          obtain ⟨hts, hvs⟩ := Prod.mk.injEq .. ▸ Except.ok.inj h
          obtain ⟨hall, hts', hvs'⟩ := ih ts' vs' hloop
          refine ⟨?_, ?_, ?_⟩
          · intro q hq
            rcases List.mem_cons.1 hq with hq | hq
            · subst hq; exact ⟨d, rfl, not_lt.1 hd⟩
            · exact hall q hq
          · rw [← hts, hts']
            simp [resolvedTime]
          · rw [← hvs, hvs']
            simp [resolvedTime, TimeOrDate.dateD]

/-! ## Constructor inversion -/

lemma finZeroCurveInit_ok_elim {cd : FinDate} {tods : List TimeOrDate}
    {rates : List ℝ} {fsel : Option FinFrequencyTypes}
    {dsel : Option FinDayCountTypes} {im : FinInterpMethods}
    {yf : FinDayCountTypes → FinDate → FinDate → ℝ} {c : FinZeroCurve}
    (h : finZeroCurveInit cd tods rates fsel dsel im yf = .ok c) :
    tods.length = rates.length ∧
    ∃ ft dct,
      fsel = some ft ∧ dsel = some dct ∧
      c.curveDate = cd ∧ c.dayCountType = dct ∧ c.frequencyType = ft ∧
      c.interpMethod = im ∧ testMonotonicity c.times ∧
      ((∃ t0, tods.head? = some (.time t0) ∧
          floatModeLoop (FinFrequency ft) (tods.zip rates) =
            .ok (c.times, c.values)) ∨
       (∃ d0, tods.head? = some (.date d0) ∧
          dateModeLoop cd (FinFrequency ft) (yf dct) (tods.zip rates) =
            .ok (c.times, c.values))) := by
  unfold finZeroCurveInit at h
  split at h
  · exact Except.noConfusion h
  next h0 =>
  split at h
  · exact Except.noConfusion h
  next h1 =>
  push_neg at h1
  split at h
  · exact Except.noConfusion h
  next ft =>
  split at h
  · exact Except.noConfusion h
  next dct =>
  refine ⟨h1, ft, dct, rfl, rfl, ?_⟩
  split at h
  next hh => exact Except.noConfusion h
  next t0 hh =>
    split at h
    next e hloop => exact Except.noConfusion h
    next tv hloop =>
      obtain ⟨ts, vs⟩ := tv
      unfold finishCurve at h
      split at h
      next hm =>
        have hc := Except.ok.inj h
        subst hc
        exact ⟨rfl, rfl, rfl, rfl, hm, Or.inl ⟨t0, hh, hloop⟩⟩
      next => exact Except.noConfusion h
  next d0 hh =>
    split at h
    next e hloop => exact Except.noConfusion h
    next tv hloop =>
      obtain ⟨ts, vs⟩ := tv
      unfold finishCurve at h
      split at h
      next hm =>
        have hc := Except.ok.inj h
        subst hc
        exact ⟨rfl, rfl, rfl, rfl, hm, Or.inr ⟨d0, hh, hloop⟩⟩
      next => exact Except.noConfusion h
  next n hh => exact Except.noConfusion h

/-! ## Small list helpers -/

lemma getD_zipWith (f : ℝ → ℝ → ℝ) (l1 l2 : List ℝ) (i : ℕ)
    (h1 : i < l1.length) (h2 : i < l2.length) :
    (List.zipWith f l1 l2).getD i 0 = f (l1.getD i 0) (l2.getD i 0) := by
  induction l1 generalizing l2 i with
  | nil => simp at h1
  | cons a l1 ih =>
    cases l2 with
    | nil => simp at h2
    | cons b l2 =>
      cases i with
      | zero => simp
      | succ i =>
        simp only [List.zipWith_cons_cons, List.getD_cons_succ]
        exact ih l2 i (by simpa using h1) (by simpa using h2)

lemma mem_of_getElem?_eq {α : Type} {l : List α} {i : ℕ} {a : α}
    (h : l[i]? = some a) : a ∈ l :=
  List.mem_iff_getElem?.2 ⟨i, h⟩

lemma getElem?_zip_of {α β : Type} (l1 : List α) (l2 : List β) (i : ℕ)
    (a : α) (b : β) (h1 : l1[i]? = some a) (h2 : l2[i]? = some b) :
    (l1.zip l2)[i]? = some (a, b) := by
  induction l1 generalizing l2 i with
  | nil => simp at h1
  | cons x l1 ih =>
    cases l2 with
    | nil => simp at h2
    | cons y l2 =>
      cases i with
      | zero =>
        simp only [List.getElem?_cons_zero, Option.some.injEq] at h1 h2
        simp [List.zip_cons_cons, h1, h2]
      | succ i =>
        simp only [List.getElem?_cons_succ] at h1 h2
        simpa [List.zip_cons_cons] using ih l2 i h1 h2

lemma listGetD_append (l l' : List (List ℝ)) (i : ℕ) (h : i < l.length) :
    (l ++ l').getD i [] = l.getD i [] := by
  induction l generalizing i with
  | nil => simp at h
  | cons a l ih =>
    cases i with
    | zero => simp
    | succ i =>
      simp only [List.cons_append, List.getD_cons_succ]
      exact ih i (by simpa using h)

lemma listGetD_set_ne (l : List (List ℝ)) (j : ℕ) (x : List ℝ) (i : ℕ)
    (h : i ≠ j) : (l.set j x).getD i [] = l.getD i [] := by
  induction l generalizing i j with
  | nil => simp
  | cons a l ih =>
    cases j with
    | zero =>
      cases i with
      | zero => exact absurd rfl h
      | succ i => simp
    | succ j =>
      cases i with
      | zero => simp
      | succ i =>
        simp only [List.set_cons_succ, List.getD_cons_succ]
        exact ih j i (fun hc => h (by rw [hc]))

/-! ## Concrete inputs used by witnesses -/

/-- A concrete anchor date. -/
def dEx0 : FinDate := { days := 0 }

/-- A date one calendar year after the anchor. -/
def dEx1 : FinDate := { days := 365 }

/-- A concrete interpolation engine that returns the first stored value
(exact at the first grid node of a one-point curve). -/
noncomputable def interpEx : Interp := fun _ _ vs _ => vs.getD 0 0

/-- A concrete day-count collaborator with year-fraction constantly 1. -/
noncomputable def yfEx : FinDayCountTypes → FinDate → FinDate → ℝ :=
  fun _ _ _ => 1

/-- The one-point curve built from the float quote `(1.0, 0.0)` at annual
compounding: the stored discount factor is `1/(1+0/1)^(1*1) = 1`. -/
noncomputable def cExF : FinZeroCurve :=
  { curveDate := dEx0, times := [1], values := [1],
    dayCountType := .ACT_ACT_ISDA, frequencyType := .ANNUAL,
    interpMethod := .FLAT_FORWARDS }

lemma initExF_eval :
    finZeroCurveInit dEx0 [.time 1] [0] (some .ANNUAL) (some .ACT_ACT_ISDA)
      .FLAT_FORWARDS yfEx = .ok cExF := by
  have hloop : floatModeLoop (FinFrequency .ANNUAL) [(TimeOrDate.time 1, (0 : ℝ))] =
      .ok ([1], [1]) := by
    have : floatDf (FinFrequency .ANNUAL) 0 1 = 1 := by
      simp [floatDf, FinFrequency]
    simp [floatModeLoop, TimeOrDate.numValue?, this]
  simp [finZeroCurveInit, hloop, finishCurve, testMonotonicity, cExF]

/-! ## Claims -/

/-- Claim C1.  The claim states that with a compounding frequency resolving
to 0 `zeroRate` returns the simple-interest rate `(1/df - 1)/t` and that
the periodic formula applies only when the resolved frequency is neither
-1 nor 0.  The code disagrees: the `if f == -1` is not an `elif`, so its
`else` branch re-runs for `f == 0` and evaluates the periodic exponent
`-1.0/t/f`, dividing by zero — every simple-interest call raises
`ZeroDivisionError` instead of returning the rate the comment
`# Simple interest` promises.  This theorem evaluates the embedded method:
for every curve, query input and interpolation engine, the call with
resolved frequency 0 is an error (`none`), never a value. -/
theorem zeroRate_simple_freq_always_raises (interp : Interp)
    (c : FinZeroCurve) (dt : QueryInput) :
    FinZeroCurve.zeroRate interp c dt 0 = none := rfl

/-- Claim C9.  `survProb` returns exactly what `df` returns on every
constructed curve and every query input: the two method bodies are the
same composition of `inputTime` and the interpolation engine. -/
theorem survProb_eq_df (interp : Interp) (c : FinZeroCurve)
    (dt : QueryInput) :
    FinZeroCurve.survProb interp c dt = FinZeroCurve.df interp c dt := rfl

/-- Claim C2, counterexample.  The claim says `bump` returns a brand-new
`ZeroCurve` instance; on the concretely constructed one-point curve the
returned object is a `FinDiscountCurve`, not a `FinZeroCurve`. -/
theorem bump_class_counterexample :
    finZeroCurveInit dEx0 [.time 1] [0] (some .ANNUAL) (some .ACT_ACT_ISDA)
      .FLAT_FORWARDS yfEx = .ok cExF ∧
    (FinZeroCurve.bump cExF (1 / 100)).isZeroCurve = false :=
  ⟨initExF_eval, rfl⟩

/-- Claim C2, amended.  `bump(b)` returns a brand-new `FinDiscountCurve`
(a plain discount curve carrying no day-count or frequency convention)
whose discount factor at each grid index `i` equals
`values[i] * exp(-b * times[i])`, and which retains the original time
grid, anchor date and interpolation method. -/
theorem bump_builds_scaled_discount_curve (c : FinZeroCurve) (b : ℝ) :
    ∃ d, FinZeroCurve.bump c b = CurveObject.discountCurve d ∧
      d.curveDate = c.curveDate ∧ d.times = c.times ∧
      d.interpMethod = c.interpMethod ∧
      ∀ i, i < c.times.length → i < c.values.length →
        d.values.getD i 0 = c.values.getD i 0 * Real.exp (-b * c.times.getD i 0) := by
  refine ⟨_, rfl, rfl, rfl, rfl, ?_⟩
  intro i h1 h2
  exact getD_zipWith (fun t v => v * Real.exp (-b * t)) c.times c.values i h1 h2

/-- Witness for the amended C2 theorem at the concrete one-point curve. -/
theorem bump_builds_scaled_discount_curve_witness :
    ∃ d, FinZeroCurve.bump cExF (1 / 100) = CurveObject.discountCurve d ∧
      d.values.getD 0 0 =
        cExF.values.getD 0 0 * Real.exp (-(1 / 100) * cExF.times.getD 0 0) := by
  obtain ⟨d, hd, _, _, _, hidx⟩ := bump_builds_scaled_discount_curve cExF (1 / 100)
  exact ⟨d, hd, hidx 0 (by simp [cExF]) (by simp [cExF])⟩

/-- Claim C7.  `fwdRate` fails exactly when `date1` precedes the anchor
date or `date2` precedes `date1`; otherwise it returns
`(df(date1)/df(date2) - 1) / yearFrac(date1, date2)` under the
caller-chosen day-count convention. -/
theorem fwdRate_order_and_formula (interp : Interp)
    (yearFrac : FinDayCountTypes → FinDate → FinDate → ℝ) (c : FinZeroCurve)
    (date1 date2 : FinDate) (dct : FinDayCountTypes) :
    ((∃ e, FinZeroCurve.fwdRate interp yearFrac c date1 date2 dct = .error e) ↔
      (date1 < c.curveDate ∨ date2 < date1)) ∧
    (¬(date1 < c.curveDate ∨ date2 < date1) →
      FinZeroCurve.fwdRate interp yearFrac c date1 date2 dct =
        .ok ((c.df interp (QueryInput.date date1) /
              c.df interp (QueryInput.date date2) - 1) /
             yearFrac dct date1 date2)) := by
  unfold FinZeroCurve.fwdRate
  by_cases hA : date1 < c.curveDate
  · rw [if_pos hA]
    exact ⟨⟨fun _ => Or.inl hA, fun _ => ⟨_, rfl⟩⟩,
           fun hn => absurd (Or.inl hA) hn⟩
  rw [if_neg hA]
  by_cases hB : date2 < date1
  · rw [if_pos hB]
    exact ⟨⟨fun _ => Or.inr hB, fun _ => ⟨_, rfl⟩⟩,
           fun hn => absurd (Or.inr hB) hn⟩
  rw [if_neg hB]
  refine ⟨⟨?_, ?_⟩, fun _ => rfl⟩
  · rintro ⟨e, he⟩
    exact Except.noConfusion he
  · rintro (hc | hc)
    · exact absurd hc hA
    · exact absurd hc hB

/-- Witness for C7 at concrete dates on the concrete curve: the no-error
branch applies and yields the stated formula. -/
theorem fwdRate_order_and_formula_witness :
    FinZeroCurve.fwdRate interpEx yfEx cExF dEx0 dEx1 .ACT_360 =
      .ok ((cExF.df interpEx (QueryInput.date dEx0) /
            cExF.df interpEx (QueryInput.date dEx1) - 1) /
           yfEx .ACT_360 dEx0 dEx1) := by
  refine (fwdRate_order_and_formula interpEx yfEx cExF dEx0 dEx1 .ACT_360).2 ?_
  rintro (hc | hc) <;>
    exact absurd hc (by simp [cExF, dEx0, dEx1]; decide)

/-- Claim C8.  Frame property of `bump`, at heap level: the method reads
the source arrays only through `.copy()` and writes only the copy, so the
arrays behind the source references keep their contents, the scalar
attributes of the result are copied values, and the new curve references
freshly allocated arrays — no aliasing of the original storage. -/
theorem bump_frame (s : ArrayStore) (c : FinZeroCurveObj) (b : ℝ)
    (ht : c.timesRef < s.arrays.length) (hv : c.valuesRef < s.arrays.length) :
    (bumpObj s c b).1.get c.timesRef = s.get c.timesRef ∧
    (bumpObj s c b).1.get c.valuesRef = s.get c.valuesRef ∧
    (bumpObj s c b).2.curveDate = c.curveDate ∧
    (bumpObj s c b).2.interpMethod = c.interpMethod ∧
    (bumpObj s c b).2.timesRef ≠ c.timesRef ∧
    (bumpObj s c b).2.valuesRef ≠ c.valuesRef := by
  refine ⟨?_, ?_, rfl, rfl, ?_, ?_⟩
  · simp only [bumpObj, ArrayStore.alloc, ArrayStore.write, ArrayStore.get]
    rw [listGetD_set_ne _ _ _ _ (by simp; omega)]
    rw [listGetD_append _ _ _ (by simp; omega)]
    exact listGetD_append _ _ _ ht
  · simp only [bumpObj, ArrayStore.alloc, ArrayStore.write, ArrayStore.get]
    rw [listGetD_set_ne _ _ _ _ (by simp; omega)]
    rw [listGetD_append _ _ _ (by simp; omega)]
    exact listGetD_append _ _ _ hv
  · simp only [bumpObj, ArrayStore.alloc]
    omega
  · simp only [bumpObj, ArrayStore.alloc, List.length_append]
    omega

/-- Witness for C8 on a concrete two-array store. -/
theorem bump_frame_witness :
    ((bumpObj { arrays := [[1], [1]] }
        { curveDate := dEx0, timesRef := 0, valuesRef := 1,
          dayCountType := .ACT_ACT_ISDA, frequencyType := .ANNUAL,
          interpMethod := .FLAT_FORWARDS } (1 / 100)).1.get 0 =
      ArrayStore.get { arrays := [[1], [1]] } 0) ∧
    ((bumpObj { arrays := [[1], [1]] }
        { curveDate := dEx0, timesRef := 0, valuesRef := 1,
          dayCountType := .ACT_ACT_ISDA, frequencyType := .ANNUAL,
          interpMethod := .FLAT_FORWARDS } (1 / 100)).2.timesRef ≠ 0) := by
  have h := bump_frame { arrays := [[1], [1]] }
    { curveDate := dEx0, timesRef := 0, valuesRef := 1,
      dayCountType := .ACT_ACT_ISDA, frequencyType := .ANNUAL,
      interpMethod := .FLAT_FORWARDS } (1 / 100)
    (by simp) (by simp)
  exact ⟨h.1, h.2.2.2.2.1⟩

/-! ## Per-index content of constructed curves -/

lemma init_float_entry {cd : FinDate} {tods : List TimeOrDate} {rates : List ℝ}
    {ft : FinFrequencyTypes} {dct : FinDayCountTypes} {im : FinInterpMethods}
    {yf : FinDayCountTypes → FinDate → FinDate → ℝ} {c : FinZeroCurve}
    (hok : finZeroCurveInit cd tods rates (some ft) (some dct) im yf = .ok c)
    {i : ℕ} {t r : ℝ}
    (htod : tods[i]? = some (.time t)) (hr : rates[i]? = some r) :
    c.times[i]? = some t ∧
    c.values[i]? = some (floatDf (FinFrequency ft) r t) := by
  obtain ⟨hlen, ft', dct', hft, hdct, hcd, hdc, hfreq, him, hmono, hmode⟩ :=
    finZeroCurveInit_ok_elim hok
  obtain rfl := Option.some.inj hft
  have hzip : (tods.zip rates)[i]? = some (.time t, r) :=
    getElem?_zip_of tods rates i _ _ htod hr
  rcases hmode with ⟨t0, hhead, hloop⟩ | ⟨d0, hhead, hloop⟩
  · obtain ⟨hall, hts, hvs⟩ :=
      floatModeLoop_ok_inv (FinFrequency ft) (tods.zip rates) c.times c.values hloop
    constructor
    · rw [hts, List.getElem?_map, hzip]
      simp [TimeOrDate.numValueD, TimeOrDate.numValue?]
    · rw [hvs, List.getElem?_map, hzip]
      simp [TimeOrDate.numValueD, TimeOrDate.numValue?]
  · obtain ⟨hall, hts, hvs⟩ :=
      dateModeLoop_ok_inv cd (FinFrequency ft) (yf dct') (tods.zip rates)
        c.times c.values hloop
    obtain ⟨d, hd, _⟩ := hall (.time t, r) (mem_of_getElem?_eq hzip)
    exact TimeOrDate.noConfusion hd

lemma init_date_entry {cd : FinDate} {tods : List TimeOrDate} {rates : List ℝ}
    {ft : FinFrequencyTypes} {dct : FinDayCountTypes} {im : FinInterpMethods}
    {yf : FinDayCountTypes → FinDate → FinDate → ℝ} {c : FinZeroCurve}
    (hok : finZeroCurveInit cd tods rates (some ft) (some dct) im yf = .ok c)
    {i : ℕ} {d : FinDate} {r : ℝ}
    (htod : tods[i]? = some (.date d)) (hr : rates[i]? = some r) :
    c.times[i]? = some (dateOffset cd d) ∧
    c.values[i]? =
      some (dateDf (FinFrequency ft) r (dateOffset cd d) (yf dct cd d)) := by
  obtain ⟨hlen, ft', dct', hft, hdct, hcd, hdc, hfreq, him, hmono, hmode⟩ :=
    finZeroCurveInit_ok_elim hok
  obtain rfl := Option.some.inj hft
  obtain rfl := Option.some.inj hdct
  have hzip : (tods.zip rates)[i]? = some (.date d, r) :=
    getElem?_zip_of tods rates i _ _ htod hr
  rcases hmode with ⟨t0, hhead, hloop⟩ | ⟨d0, hhead, hloop⟩
  · obtain ⟨hall, hts, hvs⟩ :=
      floatModeLoop_ok_inv (FinFrequency ft) (tods.zip rates) c.times c.values hloop
    obtain ⟨v, hv, _⟩ := hall (.date d, r) (mem_of_getElem?_eq hzip)
    exact Option.noConfusion hv
  · obtain ⟨hall, hts, hvs⟩ :=
      dateModeLoop_ok_inv cd (FinFrequency ft) (yf dct) (tods.zip rates)
        c.times c.values hloop
    constructor
    · rw [hts, List.getElem?_map, hzip]
      simp [resolvedTime]
    · rw [hvs, List.getElem?_map, hzip]
      simp [resolvedTime, TimeOrDate.dateD]

/-- Claim C5.  In float-offset mode the stored time is the offset as
provided, and the stored discount factor is `exp(-r*t)` under the
continuous sentinel, else `(1 + r/freq)^(-freq*t)` (the source writes the
latter as `1.0/np.power(1.0 + r/freq, freq*t)`; the two coincide for a
non-negative compounding base, and outside that range the float code
produces NaN, which has no real counterpart). -/
theorem floatMode_discount_factors (cd : FinDate) (tods : List TimeOrDate)
    (rates : List ℝ) (ft : FinFrequencyTypes) (dct : FinDayCountTypes)
    (im : FinInterpMethods) (yf : FinDayCountTypes → FinDate → FinDate → ℝ)
    (c : FinZeroCurve)
    (hok : finZeroCurveInit cd tods rates (some ft) (some dct) im yf = .ok c)
    (i : ℕ) (t r : ℝ)
    (htod : tods[i]? = some (.time t)) (hr : rates[i]? = some r) :
    c.times[i]? = some t ∧
    (FinFrequency ft = -1 → c.values[i]? = some (Real.exp (-r * t))) ∧
    (FinFrequency ft ≠ -1 → 0 ≤ 1 + r / (FinFrequency ft : ℝ) →
      c.values[i]? =
        some ((1 + r / (FinFrequency ft : ℝ)) ^
          (-((FinFrequency ft : ℝ) * t)))) := by
  obtain ⟨hts, hvs⟩ := init_float_entry hok htod hr
  refine ⟨hts, ?_, ?_⟩
  · intro hf
    rw [hvs]
    simp [floatDf, hf]
  · intro hf hbase
    rw [hvs]
    rw [floatDf, if_neg hf, Real.rpow_neg hbase, one_div]

/-- Witness for C5 on the concrete one-point annual curve. -/
theorem floatMode_discount_factors_witness :
    cExF.times[0]? = some 1 ∧
    cExF.values[0]? =
      some ((1 + 0 / (FinFrequency .ANNUAL : ℝ)) ^
        (-((FinFrequency .ANNUAL : ℝ) * 1))) := by
  have h := floatMode_discount_factors dEx0 [.time 1] [0] .ANNUAL .ACT_ACT_ISDA
    .FLAT_FORWARDS yfEx cExF initExF_eval 0 1 0 rfl rfl
  exact ⟨h.1, h.2.2 (by decide) (by norm_num [FinFrequency])⟩

/-- Claim C3.  In date mode the stored time axis is the calendar offset
`(date - curveDate)/daysPerYear` while the periodic compounding exponent
uses the day-count year-fraction `alpha`; continuously compounded factors
use the calendar offset. -/
theorem dateMode_time_axis_and_exponent (cd : FinDate) (tods : List TimeOrDate)
    (rates : List ℝ) (ft : FinFrequencyTypes) (dct : FinDayCountTypes)
    (im : FinInterpMethods) (yf : FinDayCountTypes → FinDate → FinDate → ℝ)
    (c : FinZeroCurve)
    (hok : finZeroCurveInit cd tods rates (some ft) (some dct) im yf = .ok c)
    (i : ℕ) (d : FinDate) (r : ℝ)
    (htod : tods[i]? = some (.date d)) (hr : rates[i]? = some r) :
    c.times[i]? = some (dateOffset cd d) ∧
    (FinFrequency ft = -1 →
      c.values[i]? = some (Real.exp (-r * dateOffset cd d))) ∧
    (FinFrequency ft ≠ -1 → 0 ≤ 1 + r / (FinFrequency ft : ℝ) →
      c.values[i]? =
        some ((1 + r / (FinFrequency ft : ℝ)) ^
          (-((FinFrequency ft : ℝ) * yf dct cd d)))) := by
  obtain ⟨hts, hvs⟩ := init_date_entry hok htod hr
  refine ⟨hts, ?_, ?_⟩
  · intro hf
    rw [hvs]
    simp [dateDf, hf]
  · intro hf hbase
    rw [hvs]
    rw [dateDf, if_neg hf, Real.rpow_neg hbase, one_div]

/-- Claim C6.  Round-trip: on a curve constructed from float-offset quotes,
querying `zeroRate` at a positive grid time with the construction
compounding frequency returns the original input rate, provided the
interpolation engine is exact at the grid node (and, for periodic
compounding, the compounding base `1 + r/freq` is positive — otherwise the
float code stores NaN).  -/
theorem zeroRate_roundtrip (interp : Interp) (cd : FinDate)
    (tods : List TimeOrDate) (rates : List ℝ) (ft : FinFrequencyTypes)
    (dct : FinDayCountTypes) (im : FinInterpMethods)
    (yf : FinDayCountTypes → FinDate → FinDate → ℝ) (c : FinZeroCurve)
    (hok : finZeroCurveInit cd tods rates (some ft) (some dct) im yf = .ok c)
    (i : ℕ) (t r : ℝ)
    (htod : tods[i]? = some (.time t)) (hr : rates[i]? = some r)
    (hpos : 0 < t)
    (hbase : FinFrequency ft = -1 ∨ 0 < 1 + r / (FinFrequency ft : ℝ))
    (hinterp : interp t c.times c.values c.interpMethod.value =
      c.values.getD i 0) :
    FinZeroCurve.zeroRate interp c (QueryInput.time t) (FinFrequency ft) =
      some r := by
  obtain ⟨hts, hvs⟩ := init_float_entry hok htod hr
  have hvD : c.values.getD i 0 = floatDf (FinFrequency ft) r t := by
    rw [List.getD_eq_getElem?_getD, hvs]
    rfl
  have hf0 : FinFrequency ft ≠ 0 := by cases ft <;> decide
  have htne : t ≠ 0 := ne_of_gt hpos
  unfold FinZeroCurve.zeroRate FinZeroCurve.df
  simp only [inputTime, inputFrequency]
  rw [hinterp, hvD, if_neg hf0]
  by_cases hcont : FinFrequency ft = -1
  · rw [if_pos hcont, floatDf, if_pos hcont, Real.log_exp]
    congr 1
    field_simp
  · rcases hbase with hc | hb
    · exact absurd hc hcont
    have hfne : ((FinFrequency ft : ℤ) : ℝ) ≠ 0 := by exact_mod_cast hf0
    rw [if_neg hcont, if_neg htne, floatDf, if_neg hcont]
    rw [one_div, ← Real.rpow_neg hb.le, ← Real.rpow_mul hb.le]
    have hexp :
        -((FinFrequency ft : ℝ) * t) * (-1 / t / (FinFrequency ft : ℝ)) = 1 := by
      field_simp
      ring
    rw [hexp, Real.rpow_one]
    congr 1
    field_simp

/-- Witness for C6: on the concrete one-point annual curve, the zero rate
recovered at the grid time with the construction frequency is the original
input rate 0. -/
theorem zeroRate_roundtrip_witness :
    FinZeroCurve.zeroRate interpEx cExF (QueryInput.time 1)
      (FinFrequency .ANNUAL) = some 0 :=
  zeroRate_roundtrip interpEx dEx0 [.time 1] [0] .ANNUAL .ACT_ACT_ISDA
    .FLAT_FORWARDS yfEx cExF initExF_eval 0 1 0 rfl rfl (by norm_num)
    (Or.inr (by norm_num [FinFrequency])) rfl

/-! ## The error taxonomy versus the constructor -/

lemma exists_pair_mem_zip {α β : Type} {l1 : List α} {l2 : List β}
    (hlen : l1.length = l2.length) {a : α} (ha : a ∈ l1) :
    ∃ b, (a, b) ∈ l1.zip l2 := by
  obtain ⟨i, hi, rfl⟩ := List.mem_iff_getElem.1 ha
  have hi2 : i < l2.length := hlen ▸ hi
  refine ⟨l2.get ⟨i, hi2⟩, mem_of_getElem?_eq (l := l1.zip l2) (i := i) ?_⟩
  exact getElem?_zip_of l1 l2 i _ _ (List.getElem?_eq_getElem hi)
    (List.getElem?_eq_getElem hi2)

lemma zip_map_fst_eq (f : TimeOrDate → ℝ) (tods : List TimeOrDate)
    (rates : List ℝ) (hlen : tods.length = rates.length) :
    (tods.zip rates).map (fun p => f p.1) = tods.map f := by
  have : (fun p : TimeOrDate × ℝ => f p.1) = f ∘ Prod.fst := rfl
  rw [this, ← List.map_map, List.map_fst_zip _ _ (le_of_eq hlen)]

lemma resolvedTimes_eq_map_numValueD (cd : FinDate) (tods : List TimeOrDate)
    (hnum : ∀ e ∈ tods, e.isNumericElem) :
    resolvedTimes cd tods = tods.map TimeOrDate.numValueD := by
  unfold resolvedTimes
  apply List.map_congr_left
  intro e he
  cases e with
  | time t => simp [resolvedTime, TimeOrDate.numValueD, TimeOrDate.numValue?]
  | intVal n => simp [resolvedTime, TimeOrDate.numValueD, TimeOrDate.numValue?]
  | date d => exact absurd (hnum _ he) (by simp [TimeOrDate.isNumericElem])

lemma resolvedTimes_eq_map_resolved (cd : FinDate) (tods : List TimeOrDate) :
    resolvedTimes cd tods = tods.map (resolvedTime cd) := rfl

lemma not_conditions_of_init_ok {cd : FinDate} {tods : List TimeOrDate}
    {rates : List ℝ} {fsel : Option FinFrequencyTypes}
    {dsel : Option FinDayCountTypes} {im : FinInterpMethods}
    {yf : FinDayCountTypes → FinDate → FinDate → ℝ} {c : FinZeroCurve}
    (h : finZeroCurveInit cd tods rates fsel dsel im yf = .ok c) :
    ¬ sevenConditions cd tods rates fsel dsel ∧ ¬ mixedModeInput tods := by
  obtain ⟨hlen, ft, dct, rfl, rfl, hcd, hdc, hfreq, him, hmono, hmode⟩ :=
    finZeroCurveInit_ok_elim h
  have hne : tods ≠ [] := by
    rcases hmode with ⟨t0, hhead, _⟩ | ⟨d0, hhead, _⟩ <;>
      exact fun hnil => by rw [hnil] at hhead; exact Option.noConfusion hhead
  rcases hmode with ⟨t0, hhead, hloop⟩ | ⟨d0, hhead, hloop⟩
  · -- float mode
    obtain ⟨hall, hts, hvs⟩ :=
      floatModeLoop_ok_inv (FinFrequency ft) (tods.zip rates) c.times c.values hloop
    have hnum : ∀ e ∈ tods, ∃ v, e.numValue? = some v ∧ 0 ≤ v := by
      intro e he
      obtain ⟨b, hb⟩ := exists_pair_mem_zip hlen he
      exact hall (e, b) hb
    have hnum' : ∀ e ∈ tods, e.isNumericElem := by
      intro e he
      obtain ⟨v, hv, _⟩ := hnum e he
      cases e <;>
        simp [TimeOrDate.isNumericElem, TimeOrDate.numValue?] at hv ⊢
    have hresolved : resolvedTimes cd tods = c.times := by
      rw [hts, zip_map_fst_eq _ _ _ hlen,
        resolvedTimes_eq_map_numValueD cd tods hnum']
    constructor
    · unfold sevenConditions
      push_neg
      refine ⟨by simpa using hne, hlen, by simp, by simp, ?_, ?_, ?_⟩
      · intro t ht
        rw [hresolved] at ht
        rw [hts] at ht
        obtain ⟨p, hp, rfl⟩ := List.mem_map.1 ht
        obtain ⟨v, hv, hv0⟩ := hall p hp
        simpa [TimeOrDate.numValueD, hv] using hv0
      · rw [hhead]
        exact fun hx => hx
      · rw [hresolved]
        exact hmono
    · intro hmix
      unfold mixedModeInput at hmix
      cases tods with
      | nil => exact hmix
      | cons tod0 rest =>
        have h0 : tod0 = .time t0 := by
          simpa using hhead
        subst h0
        obtain ⟨e, he, hde⟩ := hmix
        have := hnum' e he
        cases e <;> simp [TimeOrDate.isDateElem, TimeOrDate.isNumericElem] at hde this
  · -- date mode
    obtain ⟨hall, hts, hvs⟩ :=
      dateModeLoop_ok_inv cd (FinFrequency ft) (yf dct) (tods.zip rates)
        c.times c.values hloop
    have hdates : ∀ e ∈ tods, ∃ d, e = .date d ∧ 0 ≤ dateOffset cd d := by
      intro e he
      obtain ⟨b, hb⟩ := exists_pair_mem_zip hlen he
      exact hall (e, b) hb
    have hresolved : resolvedTimes cd tods = c.times := by
      rw [hts, zip_map_fst_eq _ _ _ hlen, resolvedTimes_eq_map_resolved]
    constructor
    · unfold sevenConditions
      push_neg
      refine ⟨by simpa using hne, hlen, by simp, by simp, ?_, ?_, ?_⟩
      · intro t ht
        rw [hresolved, hts] at ht
        obtain ⟨p, hp, rfl⟩ := List.mem_map.1 ht
        obtain ⟨d, hd, hd0⟩ := hall p hp
        rw [hd]
        simpa [resolvedTime] using hd0
      · rw [hhead]
        exact fun hx => hx
      · rw [hresolved]
        exact hmono
    · intro hmix
      unfold mixedModeInput at hmix
      cases tods with
      | nil => exact hmix
      | cons tod0 rest =>
        have h0 : tod0 = .date d0 := by
          simpa using hhead
        subst h0
        obtain ⟨e, he, hde⟩ := hmix
        obtain ⟨d, hd, _⟩ := hdates e he
        subst hd
        simp [TimeOrDate.isNumericElem] at hde

lemma init_ok_of_not_conditions (cd : FinDate) (tods : List TimeOrDate)
    (rates : List ℝ) (fsel : Option FinFrequencyTypes)
    (dsel : Option FinDayCountTypes) (im : FinInterpMethods)
    (yf : FinDayCountTypes → FinDate → FinDate → ℝ)
    (h7 : ¬ sevenConditions cd tods rates fsel dsel)
    (hm : ¬ mixedModeInput tods) :
    ∃ c, finZeroCurveInit cd tods rates fsel dsel im yf = .ok c := by
  unfold sevenConditions at h7
  push_neg at h7
  obtain ⟨h1, h2, h3, h4, h5, h6, hmono⟩ := h7
  cases tods with
  | nil => exact absurd rfl h1
  | cons tod0 rest =>
  cases fsel with
  | none => exact absurd rfl h3
  | some ft =>
  cases dsel with
  | none => exact absurd rfl h4
  | some dct =>
  cases tod0 with
  | intVal n =>
    exact absurd (by simp) h6
  | time t0 =>
    unfold mixedModeInput at hm
    have hnum : ∀ e ∈ TimeOrDate.time t0 :: rest, e.isNumericElem := by
      intro e he
      cases e with
      | time t => simp [TimeOrDate.isNumericElem]
      | intVal n => simp [TimeOrDate.isNumericElem]
      | date d =>
        exact absurd ⟨_, he, by simp [TimeOrDate.isDateElem]⟩ hm
    have hloopok :
        floatModeLoop (FinFrequency ft)
          ((TimeOrDate.time t0 :: rest).zip rates) =
        .ok (((TimeOrDate.time t0 :: rest).zip rates).map
               (fun p => p.1.numValueD),
             ((TimeOrDate.time t0 :: rest).zip rates).map
               (fun p => floatDf (FinFrequency ft) p.2 p.1.numValueD)) := by
      apply floatModeLoop_ok_of
      intro p hp
      have hmem := (List.of_mem_zip hp).1
      have hn := hnum p.1 hmem
      have hv0 : 0 ≤ p.1.numValueD := by
        have := h5 (resolvedTime cd p.1)
          (List.mem_map.2 ⟨p.1, hmem, rfl⟩)
        cases hx : p.1 with
        | time t => simpa [TimeOrDate.numValueD, TimeOrDate.numValue?, hx,
            resolvedTime] using this
        | intVal n => simpa [TimeOrDate.numValueD, TimeOrDate.numValue?, hx,
            resolvedTime] using this
        | date d => rw [hx] at hn; simp [TimeOrDate.isNumericElem] at hn
      cases hx : p.1 with
      | time t =>
        exact ⟨t, by simp [TimeOrDate.numValue?],
          by simpa [TimeOrDate.numValueD, TimeOrDate.numValue?, hx] using hv0⟩
      | intVal n =>
        exact ⟨(n : ℝ), by simp [TimeOrDate.numValue?],
          by simpa [TimeOrDate.numValueD, TimeOrDate.numValue?, hx] using hv0⟩
      | date d => rw [hx] at hn; simp [TimeOrDate.isNumericElem] at hn
    have hmono' : testMonotonicity
        (((TimeOrDate.time t0 :: rest).zip rates).map
          (fun p => p.1.numValueD)) := by
      rw [zip_map_fst_eq _ _ _ h2,
        ← resolvedTimes_eq_map_numValueD cd _ hnum]
      exact hmono
    refine ⟨{ curveDate := cd,
              times := ((TimeOrDate.time t0 :: rest).zip rates).map
                (fun p => p.1.numValueD),
              values := ((TimeOrDate.time t0 :: rest).zip rates).map
                (fun p => floatDf (FinFrequency ft) p.2 p.1.numValueD),
              dayCountType := dct, frequencyType := ft,
              interpMethod := im }, ?_⟩
    simp only [finZeroCurveInit, List.head?_cons, hloopok, finishCurve]
    rw [if_neg h1, if_neg (not_not_intro h2), if_pos hmono']
  | date d0 =>
    unfold mixedModeInput at hm
    have hdates : ∀ e ∈ TimeOrDate.date d0 :: rest, ∃ d, e = .date d := by
      intro e he
      cases e with
      | date d => exact ⟨d, rfl⟩
      | time t =>
        exact absurd ⟨_, he, by simp [TimeOrDate.isNumericElem]⟩ hm
      | intVal n =>
        exact absurd ⟨_, he, by simp [TimeOrDate.isNumericElem]⟩ hm
    have hloopok :
        dateModeLoop cd (FinFrequency ft) (yf dct)
          ((TimeOrDate.date d0 :: rest).zip rates) =
        .ok (((TimeOrDate.date d0 :: rest).zip rates).map
               (fun p => resolvedTime cd p.1),
             ((TimeOrDate.date d0 :: rest).zip rates).map
               (fun p => dateDf (FinFrequency ft) p.2 (resolvedTime cd p.1)
                 (yf dct cd p.1.dateD))) := by
      apply dateModeLoop_ok_of
      intro p hp
      have hmem := (List.of_mem_zip hp).1
      obtain ⟨d, hd⟩ := hdates p.1 hmem
      refine ⟨d, hd, ?_⟩
      have := h5 (resolvedTime cd p.1) (List.mem_map.2 ⟨p.1, hmem, rfl⟩)
      rw [hd] at this
      simpa [resolvedTime] using this
    have hmono' : testMonotonicity
        (((TimeOrDate.date d0 :: rest).zip rates).map
          (fun p => resolvedTime cd p.1)) := by
      rw [zip_map_fst_eq _ _ _ h2]
      exact hmono
    refine ⟨{ curveDate := cd,
              times := ((TimeOrDate.date d0 :: rest).zip rates).map
                (fun p => resolvedTime cd p.1),
              values := ((TimeOrDate.date d0 :: rest).zip rates).map
                (fun p => dateDf (FinFrequency ft) p.2 (resolvedTime cd p.1)
                  (yf dct cd p.1.dateD)),
              dayCountType := dct, frequencyType := ft,
              interpMethod := im }, ?_⟩
    simp only [finZeroCurveInit, List.head?_cons, hloopok, finishCurve]
    rw [if_neg h1, if_neg (not_not_intro h2), if_pos hmono']

/-- Claim C4, amended.  Construction raises an error (returning no curve)
if and only if one of the seven named conditions holds — EmptyInput,
LengthMismatch, UnknownFrequency, UnknownDayCount, NegativeTime,
UnsupportedInputType, NotMonotonic — or, implicitly, some element does not
fit the input mode selected by the first element (a date among float
offsets, or a float/int among dates), which surfaces as a type error
rather than one of the seven named failures. -/
theorem build_error_iff_conditions (cd : FinDate) (tods : List TimeOrDate)
    (rates : List ℝ) (fsel : Option FinFrequencyTypes)
    (dsel : Option FinDayCountTypes) (im : FinInterpMethods)
    (yf : FinDayCountTypes → FinDate → FinDate → ℝ) :
    (∃ e, finZeroCurveInit cd tods rates fsel dsel im yf = .error e) ↔
    (sevenConditions cd tods rates fsel dsel ∨ mixedModeInput tods) := by
  constructor
  · rintro ⟨e, he⟩
    by_contra hn
    push_neg at hn
    obtain ⟨c, hc⟩ :=
      init_ok_of_not_conditions cd tods rates fsel dsel im yf hn.1 hn.2
    rw [he] at hc
    exact Except.noConfusion hc
  · intro hcond
    cases hx : finZeroCurveInit cd tods rates fsel dsel im yf with
    | error e => exact ⟨e, rfl⟩
    | ok c =>
      obtain ⟨h7, hm⟩ := not_conditions_of_init_ok hx
      rcases hcond with hc | hc
      · exact absurd hc h7
      · exact absurd hc hm

/-- Counterexample to C4 as stated: the mixed-mode quote list
`[1.0, date]` with matching rates and valid selectors satisfies none of
the seven named conditions, yet construction raises (the implicit type
error of the spec, not a named failure). -/
theorem build_error_outside_named_conditions :
    finZeroCurveInit dEx0 [.time 1, .date dEx1] [0, 0] (some .ANNUAL)
      (some .ACT_ACT_ISDA) .FLAT_FORWARDS yfEx =
      .error .typeMismatch ∧
    ¬ sevenConditions dEx0 [.time 1, .date dEx1] [0, 0] (some .ANNUAL)
      (some .ACT_ACT_ISDA) := by
  constructor
  · have hloop : floatModeLoop (FinFrequency .ANNUAL)
        [(TimeOrDate.time 1, (0 : ℝ)), (TimeOrDate.date dEx1, (0 : ℝ))] =
        .error .typeMismatch := by
      simp [floatModeLoop, TimeOrDate.numValue?]
    simp [finZeroCurveInit, hloop]
  · unfold sevenConditions
    push_neg
    have hoff : dateOffset dEx0 dEx1 = 1 := by
      norm_num [dateOffset, gDaysInYear, dEx0, dEx1]
    refine ⟨by simp, by simp, by simp, by simp, ?_, by simp, ?_⟩
    · intro t ht
      simp only [resolvedTimes, resolvedTime, List.map_cons, List.map_nil,
        hoff] at ht
      rcases List.mem_cons.1 ht with rfl | ht
      · norm_num
      · rcases List.mem_cons.1 ht with rfl | ht
        · norm_num
        · simp at ht
    · simp only [resolvedTimes, resolvedTime, List.map_cons, List.map_nil,
        hoff, testMonotonicity]
      simp

/-- Witness for the amended C4 theorem: the empty quote list satisfies the
EmptyInput condition, and the iff yields a construction error. -/
theorem build_error_iff_conditions_witness :
    ∃ e, finZeroCurveInit dEx0 [] [] (some .ANNUAL) (some .ACT_ACT_ISDA)
      .FLAT_FORWARDS yfEx = .error e :=
  (build_error_iff_conditions dEx0 [] [] (some .ANNUAL) (some .ACT_ACT_ISDA)
    .FLAT_FORWARDS yfEx).2 (Or.inl (Or.inl rfl))

/-! ## First-element type dispatch -/

lemma floatModeLoop_asFloatQuote (freq : ℤ) (pairs : List (TimeOrDate × ℝ)) :
    floatModeLoop freq (pairs.map (Prod.map TimeOrDate.asFloatQuote id)) =
    floatModeLoop freq pairs := by
  induction pairs with
  | nil => rfl
  | cons p rest ih =>
    obtain ⟨tod, r⟩ := p
    cases tod <;>
      simp [floatModeLoop, TimeOrDate.asFloatQuote, TimeOrDate.numValue?,
        Prod.map, ih]

lemma dateModeLoop_asFloatQuote (cd : FinDate) (freq : ℤ)
    (yfd : FinDate → FinDate → ℝ) (pairs : List (TimeOrDate × ℝ)) :
    dateModeLoop cd freq yfd (pairs.map (Prod.map TimeOrDate.asFloatQuote id)) =
    dateModeLoop cd freq yfd pairs := by
  induction pairs with
  | nil => rfl
  | cons p rest ih =>
    obtain ⟨tod, r⟩ := p
    cases tod <;>
      simp [dateModeLoop, TimeOrDate.asFloatQuote, Prod.map, ih]

/-- Claim C10.  Mode dispatch inspects only the first element with exact
type checks: a quote list headed by a Python `int` (a numeric value that
is not a `float`) is rejected with the unsupported-input error whenever
the earlier length check passes; and elements after the first are never
type-checked — replacing every later `int` element by the `float` of the
same value changes nothing about the construction result. -/
theorem first_element_type_dispatch :
    (∀ (cd : FinDate) (n : ℤ) (rest : List TimeOrDate) (rates : List ℝ)
       (ft : FinFrequencyTypes) (dct : FinDayCountTypes)
       (im : FinInterpMethods)
       (yf : FinDayCountTypes → FinDate → FinDate → ℝ),
       (TimeOrDate.intVal n :: rest).length = rates.length →
       finZeroCurveInit cd (.intVal n :: rest) rates (some ft) (some dct)
         im yf = .error .unsupportedInputType) ∧
    (∀ (cd : FinDate) (tod0 : TimeOrDate) (rest : List TimeOrDate)
       (rates : List ℝ) (fsel : Option FinFrequencyTypes)
       (dsel : Option FinDayCountTypes) (im : FinInterpMethods)
       (yf : FinDayCountTypes → FinDate → FinDate → ℝ),
       finZeroCurveInit cd (tod0 :: rest) rates fsel dsel im yf =
       finZeroCurveInit cd (tod0 :: rest.map TimeOrDate.asFloatQuote) rates
         fsel dsel im yf) := by
  constructor
  · intro cd n rest rates ft dct im yf hlen
    unfold finZeroCurveInit
    rw [if_neg (by simp), if_neg (not_not_intro hlen)]
    simp only [List.head?_cons]
  · intro cd tod0 rest rates fsel dsel im yf
    unfold finZeroCurveInit
    simp only [List.length_cons, List.length_map, List.head?_cons]
    by_cases h0 : rest.length + 1 = 0
    · rw [if_pos h0, if_pos h0]
    rw [if_neg h0, if_neg h0]
    by_cases h1 : rest.length + 1 ≠ rates.length
    · rw [if_pos h1, if_pos h1]
    rw [if_neg h1, if_neg h1]
    cases fsel with
    | none => rfl
    | some ft =>
    cases dsel with
    | none => rfl
    | some dct =>
    cases tod0 with
    | intVal n => rfl
    | time t0 =>
      have hmap : TimeOrDate.time t0 :: rest.map TimeOrDate.asFloatQuote =
          (TimeOrDate.time t0 :: rest).map TimeOrDate.asFloatQuote := by
        simp [TimeOrDate.asFloatQuote]
      rw [hmap, List.zip_map_left]
      simp only [floatModeLoop_asFloatQuote]
    | date d0 =>
      have hmap : TimeOrDate.date d0 :: rest.map TimeOrDate.asFloatQuote =
          (TimeOrDate.date d0 :: rest).map TimeOrDate.asFloatQuote := by
        simp [TimeOrDate.asFloatQuote]
      rw [hmap, List.zip_map_left]
      simp only [dateModeLoop_asFloatQuote]

/-- Witness for C10: the int-headed list `[1]` is rejected as unsupported
input, while an int in second position is accepted exactly as the float of
the same value. -/
theorem first_element_type_dispatch_witness :
    finZeroCurveInit dEx0 [.intVal 1] [0] (some .ANNUAL) (some .ACT_ACT_ISDA)
      .FLAT_FORWARDS yfEx = .error .unsupportedInputType ∧
    finZeroCurveInit dEx0 [.time 1, .intVal 2] [0, 0] (some .ANNUAL)
      (some .ACT_ACT_ISDA) .FLAT_FORWARDS yfEx =
    finZeroCurveInit dEx0 [.time 1, .time ((2 : ℤ) : ℝ)] [0, 0] (some .ANNUAL)
      (some .ACT_ACT_ISDA) .FLAT_FORWARDS yfEx := by
  constructor
  · exact first_element_type_dispatch.1 dEx0 1 [] [0] .ANNUAL .ACT_ACT_ISDA
      .FLAT_FORWARDS yfEx (by simp)
  · exact first_element_type_dispatch.2 dEx0 (.time 1) [.intVal 2] [0, 0]
      (some .ANNUAL) (some .ACT_ACT_ISDA) .FLAT_FORWARDS yfEx

/-- The date-mode construction of the same one-point curve: the quote
`(dEx1, 0.0)` resolves to calendar offset 1 and discount factor 1. -/
lemma initExD_eval :
    finZeroCurveInit dEx0 [.date dEx1] [0] (some .ANNUAL) (some .ACT_ACT_ISDA)
      .FLAT_FORWARDS yfEx = .ok cExF := by
  have hoff : dateOffset dEx0 dEx1 = 1 := by
    norm_num [dateOffset, gDaysInYear, dEx0, dEx1]
  have hdf : dateDf (FinFrequency .ANNUAL) 0 1
      (yfEx .ACT_ACT_ISDA dEx0 dEx1) = 1 := by
    simp [dateDf, FinFrequency, yfEx]
  have hloop : dateModeLoop dEx0 (FinFrequency .ANNUAL) (yfEx .ACT_ACT_ISDA)
      [(TimeOrDate.date dEx1, (0 : ℝ))] = .ok ([1], [1]) := by
    rw [dateModeLoop, if_neg (by rw [hoff]; norm_num)]
    rw [dateModeLoop]
    rw [hoff, hdf]
  simp [finZeroCurveInit, hloop, finishCurve, testMonotonicity, cExF]

/-- Witness for C3 on the concrete one-point date-mode curve. -/
theorem dateMode_time_axis_and_exponent_witness :
    cExF.times[0]? = some (dateOffset dEx0 dEx1) ∧
    cExF.values[0]? =
      some ((1 + 0 / (FinFrequency .ANNUAL : ℝ)) ^
        (-((FinFrequency .ANNUAL : ℝ) * yfEx .ACT_ACT_ISDA dEx0 dEx1))) := by
  have h := dateMode_time_axis_and_exponent dEx0 [.date dEx1] [0] .ANNUAL
    .ACT_ACT_ISDA .FLAT_FORWARDS yfEx cExF initExD_eval 0 dEx1 0 rfl rfl
  exact ⟨h.1, h.2.2 (by decide) (by norm_num [FinFrequency])⟩
